import Mathlib

/-!
Shallow embedding of the messaging core of the ACE framework resource
(demos/hello-layers/src/ace/framework/resource.py): the topology resolver
(queue and exchange naming), the message envelope constructor, the
consumer-local queue bridge, the disconnect sequence, and the retry loops
of queue subscription and exchange resolution.
-/

namespace ACE

/-- Modelled from the spec: the module `ace.constants` imported by
`resource.py` is not part of the excerpted source.  Per the spec, the
direction set is "southbound" and "northbound", and enumeration order is
southbound first, then northbound (the direction-major order of
`build_all_layer_queue_names`). -/
def LAYER_ORIENTATIONS : List String := ["southbound", "northbound"]

/-- Modelled from the spec: `QUEUE_SUBSCRIBE_RETRY_SECONDS` from the missing
module `ace.constants`, the fixed configured backoff interval of the retry
loops.  Its concrete numeric value is not in the excerpted source and is
immaterial to the claims; only the fact that every retry waits this same
constant matters. -/
def QUEUE_SUBSCRIBE_RETRY_SECONDS : Nat := 1

/-- Embedding of `build_queue_name(direction, layer)`: the string
`direction ++ "." ++ layer` when `layer` is truthy (a non-empty string) and
`direction` is a member of `LAYER_ORIENTATIONS`; otherwise `None`. -/
def build_queue_name (direction layer : String) : Option String :=
  if layer ≠ "" ∧ direction ∈ LAYER_ORIENTATIONS then
    some (direction ++ "." ++ layer)
  else
    none

/-- Embedding of `build_exchange_name(direction, layer)`: prepends
`"exchange."` to the queue name when `build_queue_name` returned a truthy
value (in Python, a non-`None` and non-empty string); otherwise `None`. -/
def build_exchange_name (direction layer : String) : Option String :=
  match build_queue_name direction layer with
  | some queue => if queue ≠ "" then some ("exchange." ++ queue) else none
  | none => none

/-- Embedding of `is_existant_layer_queue(orientation, idx)`: queue names are
direction dot destination layer, so there is no southbound queue to the first
layer and no northbound queue to the last layer.  The `layers` argument stands
for `self.settings.layers`. -/
def is_existant_layer_queue (layers : List String) (orientation : String)
    (idx : Nat) : Bool :=
  if (orientation = "southbound" ∧ idx = 0) ∨
      (orientation = "northbound" ∧ idx = layers.length - 1) then
    false
  else
    true

/-- Embedding of `build_all_layer_queue_names()`: for each orientation (outer
loop, in `LAYER_ORIENTATIONS` order) and each enumerated layer (inner loop,
in list order), append the result of `build_queue_name` whenever
`is_existant_layer_queue` holds.  The appended value is kept as an `Option`
because the Python code appends whatever `build_queue_name` returned. -/
def build_all_layer_queue_names (layers : List String) : List (Option String) :=
  (LAYER_ORIENTATIONS.map (fun orientation =>
    (layers.enum.filter (fun p => is_existant_layer_queue layers orientation p.1)).map
      (fun p => build_queue_name orientation p.2))).flatten

/-- Values of a JSON-style Python object, as produced and consumed by the
envelope codec. -/
inductive JValue where
  | str (s : String)
  | num (n : Int)
  | bool (b : Bool)
  | null
  | arr (elems : List JValue)
  | obj (fields : List (String × JValue))

/-- A Python dict with string keys, modelled as an insertion-ordered
association list; a real dict never holds the same key twice. -/
abbrev PyDict := List (String × JValue)

/-- Embedding of Python dict item assignment on an association list: overwrite
the value at an existing key in place, otherwise append the new binding at
the end (insertion order semantics of Python dicts; a dict never holds a key
twice). -/
def assoc_set {β : Type} : List (String × β) → String → β → List (String × β)
  | [], k, v => [(k, v)]
  | (a, b) :: d, k, v =>
    if a == k then (k, v) :: d else (a, b) :: assoc_set d k v

/-- Modelled from the spec: the serialization used by `build_message` (the
standard library call chain json.dumps followed by encode) and its inverse
json.loads are external to the excerpted source; the spec describes decode as
the inverse of encode, so the wire bytes are modelled as a value carrying the
serialized mapping. -/
structure EncodedBytes where
  payload : PyDict

/-- Modelled from the spec: decode, the inverse of the serialization used by
`build_message`. -/
def json_loads (b : EncodedBytes) : PyDict := b.payload

/-- Embedding of `build_message(message=None, message_type="data")`, with the
in-place mutation made explicit.  The line `message = message or ...` replaces
a falsy argument (`None` or an empty dict) with a fresh dict, so only a
non-empty caller dict is the one mutated; the keys `type` and `resource` are
then assigned and the mapping is serialized.  The first component of the
result is the state of the caller-supplied dict after the call; the second is
the wire bytes. -/
def build_message (message : Option PyDict) (message_type : String)
    (resource_name : String) : Option PyDict × EncodedBytes :=
  let base : PyDict := message.getD []
  let merged : PyDict :=
    assoc_set (assoc_set base "type" (JValue.str message_type))
      "resource" (JValue.str resource_name)
  let callerAfter : Option PyDict :=
    message.map (fun d => if d.isEmpty then d else merged)
  (callerAfter, ⟨merged⟩)

/-- State of `self.consumer_local_queues`: a dict from queue name to FIFO,
each FIFO a list holding its oldest element first. -/
abbrev LocalQueues (α : Type) := List (String × List α)

/-- Embedding of `get_consumer_local_queue(queue_name)`: create an empty FIFO
on first use, then return the FIFO for the name together with the updated
dict. -/
def get_consumer_local_queue {α : Type} (st : LocalQueues α)
    (queue_name : String) : LocalQueues α × List α :=
  match st.lookup queue_name with
  | some q => (st, q)
  | none => (st ++ [(queue_name, [])], [])

/-- Embedding of `push_message_to_consumer_local_queue(queue_name, message)`:
`put` appends at the tail of the FIFO for the name. -/
def push_message_to_consumer_local_queue {α : Type} (st : LocalQueues α)
    (queue_name : String) (message : α) : LocalQueues α :=
  let r := get_consumer_local_queue st queue_name
  assoc_set r.1 queue_name (r.2 ++ [message])

/-- Embedding of the while-not-empty loop of
`get_messages_from_consumer_local_queue`: repeatedly pop the head until the
FIFO is empty, returning the popped messages in pop order together with the
remaining FIFO. -/
def drain_loop {α : Type} : List α → List α × List α
  | [] => ([], [])
  | m :: rest =>
    let r := drain_loop rest
    (m :: r.1, r.2)

/-- Embedding of `get_messages_from_consumer_local_queue(queue_name)`: drain
the FIFO for the name without blocking and return the drained messages
together with the updated dict. -/
def get_messages_from_consumer_local_queue {α : Type} (st : LocalQueues α)
    (queue_name : String) : List α × LocalQueues α :=
  let r := get_consumer_local_queue st queue_name
  let d := drain_loop r.2
  (d.1, assoc_set r.1 queue_name d.2)

/-- The four bus teardown steps of `disconnect_busses`, in source order. -/
inductive DisconnectStep where
  | pre_disconnect_hook
  | close_channel
  | close_connection
  | stop_loop
  deriving DecidableEq

/-- Embedding of `disconnect_busses`: the straight-line sequence of teardown
steps, each paired with whether the caller blocks on its completion
(run_until_complete, waited) or merely posts it to the loop
(call_soon_threadsafe, not waited). -/
def disconnect_busses : List (DisconnectStep × Bool) :=
  [(DisconnectStep.pre_disconnect_hook, true), (DisconnectStep.close_channel, true),
    (DisconnectStep.close_connection, true), (DisconnectStep.stop_loop, false)]

/-- The steps `disconnect_busses` has completed before returning to its
caller, in completion order. -/
def disconnect_steps_awaited : List DisconnectStep :=
  (disconnect_busses.filter (fun p => p.2)).map (fun p => p.1)

/-- The steps `disconnect_busses` posts asynchronously without waiting. -/
def disconnect_steps_posted : List DisconnectStep :=
  (disconnect_busses.filter (fun p => !p.2)).map (fun p => p.1)

/-- Behaviour of one bus-side attempt of a retry loop in a simulated
scenario: the attempt succeeds, raises the channel-closed condition, or
raises a failure of any other class. -/
inductive AttemptOutcome where
  | ok
  | chanClosed
  | otherError
  deriving DecidableEq

/-- Observable side events of a retry loop run: recreating the channel from
the live connection, and sleeping for a backoff interval. -/
inductive BusEvent where
  | recreate_channel
  | sleep (seconds : Nat)
  deriving DecidableEq

/-- How a retry loop run ended, with the 1-based attempt number at which it
ended: consumer attached (`try_queue_subscribe`), exchange handle returned
(`try_get_exchange`), a non-channel-closed failure propagated to the caller,
or the scenario script ran out with the loop still running. -/
inductive RetryOutcome where
  | subscribed (attempt : Nat)
  | gotExchange (attempt : Nat)
  | errored (attempt : Nat)
  | exhausted
  deriving DecidableEq

/-- Shared loop shape of `try_queue_subscribe` and `try_get_exchange`, driven
by a script of attempt outcomes (one per loop iteration; an empty script
means the scenario ends with the loop still running).  `closed` is the value
of `self.channel.is_closed` at the top of the iteration: a channel that
raised the channel-closed condition is closed, and the loop then recreates
it from the connection before acting.  Only the channel-closed class is
caught; it is followed by a sleep of `QUEUE_SUBSCRIBE_RETRY_SECONDS` and a
retry.  Any other failure propagates immediately. -/
def retry_loop (success : Nat → RetryOutcome) (closed : Bool) (attempt : Nat) :
    List AttemptOutcome → RetryOutcome × List BusEvent
  | [] => (RetryOutcome.exhausted, [])
  | o :: rest =>
    let pre : List BusEvent := if closed then [BusEvent.recreate_channel] else []
    match o with
    | AttemptOutcome.ok => (success attempt, pre)
    | AttemptOutcome.otherError => (RetryOutcome.errored attempt, pre)
    | AttemptOutcome.chanClosed =>
      let r := retry_loop success true (attempt + 1) rest
      (r.1, pre ++ BusEvent.sleep QUEUE_SUBSCRIBE_RETRY_SECONDS :: r.2)

/-- Embedding of `try_queue_subscribe(queue_name, callback)`: the retry loop
whose successful attempt attaches the consumer callback. -/
def try_queue_subscribe : Bool → Nat → List AttemptOutcome → RetryOutcome × List BusEvent :=
  retry_loop RetryOutcome.subscribed

/-- Embedding of `try_get_exchange(exchange_name)`: the retry loop whose
successful attempt returns the exchange handle. -/
def try_get_exchange : Bool → Nat → List AttemptOutcome → RetryOutcome × List BusEvent :=
  retry_loop RetryOutcome.gotExchange

/-- Recognizer for sleep events. -/
def isSleep : BusEvent → Bool
  | BusEvent.sleep _ => true
  | BusEvent.recreate_channel => false

/-- Events emitted by a retry loop while it works through `n` consecutive
attempts that all raise the channel-closed condition, starting from a channel
whose closed flag is `closed`: one recreation whenever the channel is closed
at the top of the iteration, then one backoff sleep per caught failure. -/
def chanClosedEvents (closed : Bool) : Nat → List BusEvent
  | 0 => []
  | n + 1 =>
    (if closed then [BusEvent.recreate_channel] else []) ++
      BusEvent.sleep QUEUE_SUBSCRIBE_RETRY_SECONDS :: chanClosedEvents true n

theorem chanClosedEvents_sleep_const (closed : Bool) (n : Nat) :
    ∀ s, BusEvent.sleep s ∈ chanClosedEvents closed n →
      s = QUEUE_SUBSCRIBE_RETRY_SECONDS := by
  induction n generalizing closed with
  | zero => simp [chanClosedEvents]
  | succ n ih =>
    intro s hs
    cases closed <;> simp [chanClosedEvents] at hs
    · rcases hs with hs | hs
      · exact hs
      · exact ih true s hs
    · rcases hs with hs | hs
      · exact hs
      · exact ih true s hs

theorem chanClosedEvents_countP_sleep (closed : Bool) (n : Nat) :
    (chanClosedEvents closed n).countP isSleep = n := by
  induction n generalizing closed with
  | zero => rfl
  | succ n ih =>
    cases closed <;>
      simp [chanClosedEvents, isSleep, List.countP_append, List.countP_cons, ih true]

/-- Running a retry loop on a script that starts with a block of
channel-closed attempts: the run continues on the rest of the script with the
channel marked closed (unless the block was empty), the attempt counter
advanced by the block length, and the events of the block emitted first. -/
theorem retry_loop_chanClosed_run (success : Nat → RetryOutcome)
    (pre : List AttemptOutcome) (rest : List AttemptOutcome) (closed : Bool)
    (attempt : Nat) (hpre : ∀ o ∈ pre, o = AttemptOutcome.chanClosed) :
    retry_loop success closed attempt (pre ++ rest) =
      ((retry_loop success (if pre.isEmpty then closed else true)
          (attempt + pre.length) rest).1,
        chanClosedEvents closed pre.length ++
          (retry_loop success (if pre.isEmpty then closed else true)
            (attempt + pre.length) rest).2) := by
  induction pre generalizing closed attempt with
  | nil => simp [chanClosedEvents]
  | cons o pre ih =>
    have ho : o = AttemptOutcome.chanClosed := hpre o (by simp)
    subst ho
    have hpre2 : ∀ o ∈ pre, o = AttemptOutcome.chanClosed :=
      fun o h => hpre o (by simp [h])
    rw [List.cons_append]
    show (let r := retry_loop success true (attempt + 1) (pre ++ rest)
      ((r.1, (if closed then [BusEvent.recreate_channel] else []) ++
        BusEvent.sleep QUEUE_SUBSCRIBE_RETRY_SECONDS :: r.2) :
        RetryOutcome × List BusEvent)) = _
    rw [ih true (attempt + 1) hpre2]
    simp [chanClosedEvents, Nat.add_assoc, Nat.add_comm, Nat.add_left_comm]

/-- Evaluation of one retry iteration whose attempt raises a failure of a
class other than channel-closed: the failure propagates at once, after the
possible channel recreation and independently of the remaining script. -/
theorem retry_loop_otherError_head (success : Nat → RetryOutcome)
    (closed : Bool) (attempt : Nat) (post : List AttemptOutcome) :
    retry_loop success closed attempt (AttemptOutcome.otherError :: post) =
      (RetryOutcome.errored attempt,
        if closed then [BusEvent.recreate_channel] else []) := by
  cases closed <;> rfl

/-- Core of C2 for either retry loop: on a script of channel-closed failures
followed by a failure of another class, the loop propagates that failure at
the attempt right after the caught block (retrying nothing after it, so the
run does not depend on the remaining script), and every caught failure is
followed by one backoff sleep of the fixed configured constant. -/
theorem retry_loop_catches_only_chanClosed (success : Nat → RetryOutcome)
    (pre post : List AttemptOutcome) (closed : Bool) (attempt : Nat)
    (hpre : ∀ o ∈ pre, o = AttemptOutcome.chanClosed) :
    (retry_loop success closed attempt
        (pre ++ AttemptOutcome.otherError :: post)).1 =
      RetryOutcome.errored (attempt + pre.length) ∧
    retry_loop success closed attempt (pre ++ AttemptOutcome.otherError :: post) =
      retry_loop success closed attempt (pre ++ [AttemptOutcome.otherError]) ∧
    (∀ s, BusEvent.sleep s ∈ (retry_loop success closed attempt
        (pre ++ AttemptOutcome.otherError :: post)).2 →
      s = QUEUE_SUBSCRIBE_RETRY_SECONDS) ∧
    (retry_loop success closed attempt
        (pre ++ AttemptOutcome.otherError :: post)).2.countP isSleep = pre.length := by
  have h1 := retry_loop_chanClosed_run success pre
    (AttemptOutcome.otherError :: post) closed attempt hpre
  have h2 := retry_loop_chanClosed_run success pre
    [AttemptOutcome.otherError] closed attempt hpre
  rw [retry_loop_otherError_head] at h1 h2
  refine ⟨?_, ?_, ?_, ?_⟩
  · rw [h1]
  · rw [h1, h2]
  · intro s hs
    rw [h1] at hs
    simp only [List.mem_append] at hs
    rcases hs with hs | hs
    · exact chanClosedEvents_sleep_const closed pre.length s hs
    · by_cases hc : (if pre.isEmpty then closed else true) = true <;>
        simp [hc] at hs
  · rw [h1]
    simp [List.countP_append, chanClosedEvents_countP_sleep]
    by_cases hc : (if pre.isEmpty then closed else true) = true <;>
      simp [hc, isSleep]

/-- C2: the retry loops of `try_queue_subscribe` and `try_get_exchange`
catch only the channel-closed class of failure and wait the fixed configured
backoff interval before each retry; a failure of any other class propagates
immediately to the caller (the loop ends errored at that very attempt, the
remaining script is never consumed, and no further retry happens). -/
theorem retry_loops_catch_only_channel_closed (pre post : List AttemptOutcome)
    (closed : Bool) (attempt : Nat)
    (hpre : ∀ o ∈ pre, o = AttemptOutcome.chanClosed) :
    ((try_queue_subscribe closed attempt
        (pre ++ AttemptOutcome.otherError :: post)).1 =
      RetryOutcome.errored (attempt + pre.length) ∧
    try_queue_subscribe closed attempt (pre ++ AttemptOutcome.otherError :: post) =
      try_queue_subscribe closed attempt (pre ++ [AttemptOutcome.otherError]) ∧
    (∀ s, BusEvent.sleep s ∈ (try_queue_subscribe closed attempt
        (pre ++ AttemptOutcome.otherError :: post)).2 →
      s = QUEUE_SUBSCRIBE_RETRY_SECONDS) ∧
    (try_queue_subscribe closed attempt
        (pre ++ AttemptOutcome.otherError :: post)).2.countP isSleep = pre.length) ∧
    ((try_get_exchange closed attempt
        (pre ++ AttemptOutcome.otherError :: post)).1 =
      RetryOutcome.errored (attempt + pre.length) ∧
    try_get_exchange closed attempt (pre ++ AttemptOutcome.otherError :: post) =
      try_get_exchange closed attempt (pre ++ [AttemptOutcome.otherError]) ∧
    (∀ s, BusEvent.sleep s ∈ (try_get_exchange closed attempt
        (pre ++ AttemptOutcome.otherError :: post)).2 →
      s = QUEUE_SUBSCRIBE_RETRY_SECONDS) ∧
    (try_get_exchange closed attempt
        (pre ++ AttemptOutcome.otherError :: post)).2.countP isSleep = pre.length) :=
  ⟨retry_loop_catches_only_chanClosed RetryOutcome.subscribed pre post closed attempt hpre,
    retry_loop_catches_only_chanClosed RetryOutcome.gotExchange pre post closed attempt hpre⟩

/-- Witness for C2: one caught channel-closed failure, then a failure of
another class; the loop ends errored on the second attempt. -/
theorem retry_loops_catch_only_channel_closed_witness :
    (try_queue_subscribe false 1
        ([AttemptOutcome.chanClosed] ++ AttemptOutcome.otherError ::
          [AttemptOutcome.ok])).1 =
      RetryOutcome.errored (1 + [AttemptOutcome.chanClosed].length) ∧
    (try_get_exchange false 1
        ([AttemptOutcome.chanClosed] ++ AttemptOutcome.otherError ::
          [AttemptOutcome.ok])).2.countP isSleep =
      [AttemptOutcome.chanClosed].length :=
  ⟨(retry_loops_catch_only_channel_closed [AttemptOutcome.chanClosed]
      [AttemptOutcome.ok] false 1 (by decide)).1.1,
    (retry_loops_catch_only_channel_closed [AttemptOutcome.chanClosed]
      [AttemptOutcome.ok] false 1 (by decide)).2.2.2.2⟩

/-- A queue name built by concatenation around a dot separator is never the
empty string. -/
theorem append_dot_ne_empty (a b : String) : a ++ "." ++ b ≠ "" := by
  intro h
  have hlen := congrArg String.length h
  rw [String.length_append, String.length_append] at hlen
  have h1 : String.length "." = 1 := rfl
  have h0 : String.length "" = 0 := rfl
  omega

/-- C1: with the channel initially open, a subscribe whose attempt raises the
channel-closed condition exactly twice and then succeeds ends with the
consumer attached on the third attempt, emits exactly two channel-recreation
events, and surfaces no error to the caller (the outcome is the success
outcome, not an error outcome). -/
theorem subscribe_recovers_after_two_channel_closures :
    (try_queue_subscribe false 1
        [AttemptOutcome.chanClosed, AttemptOutcome.chanClosed, AttemptOutcome.ok]).1 =
      RetryOutcome.subscribed 3 ∧
    ((try_queue_subscribe false 1
        [AttemptOutcome.chanClosed, AttemptOutcome.chanClosed, AttemptOutcome.ok]).2.count
      BusEvent.recreate_channel) = 2 := by
  constructor
  · rfl
  · rfl

/-- C3: `disconnect_busses` completes the pre-disconnect hook, the channel
close and the connection close, in that order, before returning; only the
final loop-stop instruction is posted without being waited on. -/
theorem disconnect_awaits_hook_then_channel_then_connection :
    disconnect_steps_awaited =
      [DisconnectStep.pre_disconnect_hook, DisconnectStep.close_channel,
        DisconnectStep.close_connection] ∧
    disconnect_steps_posted = [DisconnectStep.stop_loop] ∧
    disconnect_busses.map (fun p => p.1) =
      [DisconnectStep.pre_disconnect_hook, DisconnectStep.close_channel,
        DisconnectStep.close_connection, DisconnectStep.stop_loop] := by
  refine ⟨rfl, rfl, rfl⟩

/-- C4: on the three-layer list L0, L1, L2, enumerating all queue names
yields exactly the four names southbound.L1, southbound.L2, northbound.L0,
northbound.L1, in that order. -/
theorem all_queue_names_of_three_layers :
    build_all_layer_queue_names ["L0", "L1", "L2"] =
      [some "southbound.L1", some "southbound.L2",
        some "northbound.L0", some "northbound.L1"] := by
  decide

/-- C5: for a non-empty layer list and an index in range, a layer queue is
non-existent exactly for southbound at index 0 and for northbound at the
last index, and exists for every other orientation and index pair. -/
theorem is_existant_layer_queue_false_iff (layers : List String)
    (orientation : String) (idx : Nat) (hne : layers ≠ [])
    (hidx : idx < layers.length) :
    is_existant_layer_queue layers orientation idx = false ↔
      (orientation = "southbound" ∧ idx = 0) ∨
      (orientation = "northbound" ∧ idx = layers.length - 1) := by
  by_cases h : (orientation = "southbound" ∧ idx = 0) ∨
      (orientation = "northbound" ∧ idx = layers.length - 1)
  · simp [is_existant_layer_queue, h]
  · simp [is_existant_layer_queue, h]

/-- Witness for C5 at a concrete boundary input. -/
theorem is_existant_layer_queue_false_iff_witness :
    is_existant_layer_queue ["L0", "L1"] "southbound" 0 = false ↔
      ("southbound" = "southbound" ∧ 0 = 0) ∨
      ("southbound" = "northbound" ∧ 0 = (["L0", "L1"] : List String).length - 1) :=
  is_existant_layer_queue_false_iff ["L0", "L1"] "southbound" 0
    (by decide) (by decide)

/-- C6: `build_queue_name` returns the direction dot layer string exactly
when the layer is non-empty and the direction is recognized, and `None`
otherwise; `build_exchange_name` is "exchange." prepended to the queue name
exactly when the queue name is defined, and `None` exactly when the queue
name is `None`. -/
theorem build_queue_and_exchange_name_spec (direction layer : String) :
    (layer ≠ "" → direction ∈ LAYER_ORIENTATIONS →
      build_queue_name direction layer = some (direction ++ "." ++ layer)) ∧
    (layer = "" ∨ direction ∉ LAYER_ORIENTATIONS →
      build_queue_name direction layer = none) ∧
    build_exchange_name direction layer =
      Option.map (fun q => "exchange." ++ q) (build_queue_name direction layer) ∧
    (build_exchange_name direction layer = none ↔
      build_queue_name direction layer = none) := by
  have hmap : build_exchange_name direction layer =
      Option.map (fun q => "exchange." ++ q) (build_queue_name direction layer) := by
    unfold build_exchange_name build_queue_name
    by_cases h : layer ≠ "" ∧ direction ∈ LAYER_ORIENTATIONS
    · simp [h, append_dot_ne_empty]
    · simp [h]
  refine ⟨?_, ?_, hmap, ?_⟩
  · intro h1 h2
    simp [build_queue_name, h1, h2]
  · intro h
    rcases h with h | h
    · simp [build_queue_name, h]
    · simp [build_queue_name, h]
  · rw [hmap]
    cases build_queue_name direction layer <;> simp

/-- Witness for C6 at a concrete direction and layer. -/
theorem build_queue_and_exchange_name_spec_witness :
    build_queue_name "southbound" "L1" = some ("southbound" ++ "." ++ "L1") ∧
    build_exchange_name "southbound" "L1" =
      Option.map (fun q => "exchange." ++ q) (build_queue_name "southbound" "L1") :=
  ⟨(build_queue_and_exchange_name_spec "southbound" "L1").1 (by decide) (by decide),
    (build_queue_and_exchange_name_spec "southbound" "L1").2.2.1⟩

theorem lookup_assoc_set_self {β : Type} (d : List (String × β)) (k : String)
    (v : β) : (assoc_set d k v).lookup k = some v := by
  induction d with
  | nil => simp [assoc_set]
  | cons p d ih =>
    obtain ⟨a, b⟩ := p
    by_cases ha : (a == k) = true
    · simp [assoc_set, ha]
    · have hka : (k == a) = false := by
        rw [beq_eq_false_iff_ne]
        intro e
        exact ha (by simp [e])
      simp [assoc_set, ha, List.lookup_cons, hka, ih]

theorem lookup_assoc_set_ne {β : Type} (d : List (String × β)) (k k' : String)
    (v : β) (hne : k' ≠ k) : (assoc_set d k v).lookup k' = d.lookup k' := by
  have hk : (k' == k) = false := by
    rw [beq_eq_false_iff_ne]
    exact hne
  induction d with
  | nil => simp [assoc_set, List.lookup_cons, hk]
  | cons p d ih =>
    obtain ⟨a, b⟩ := p
    by_cases ha : (a == k) = true
    · have hak : a = k := by rwa [beq_iff_eq] at ha
      subst hak
      simp [assoc_set, List.lookup_cons, hk]
    · by_cases hq : (k' == a) = true <;>
        simp [assoc_set, ha, List.lookup_cons, hq, ih]

/-- Overwriting a key that is present leaves the key sequence of the dict
unchanged. -/
theorem keys_assoc_set_of_lookup {β : Type} (d : List (String × β))
    (k : String) (v w : β) (h : d.lookup k = some w) :
    (assoc_set d k v).map (fun p => p.1) = d.map (fun p => p.1) := by
  induction d with
  | nil => simp at h
  | cons p d ih =>
    obtain ⟨a, b⟩ := p
    by_cases ha : (a == k) = true
    · have hak : a = k := by rwa [beq_iff_eq] at ha
      simp [assoc_set, ha, hak]
    · have hka : (k == a) = false := by
        rw [beq_eq_false_iff_ne]
        intro e
        exact ha (by simp [e])
      rw [List.lookup_cons, hka] at h
      simp [assoc_set, ha, ih h]

/-- C7: decoding the bytes built from a payload with message type "data" and
resource name "R" yields a mapping whose type key is "data", whose resource
key is "R", and which agrees with the payload on every other key; and
re-encoding the decoded mapping preserves the key sequence exactly. -/
theorem build_message_roundtrip (payload : PyDict) :
    (json_loads (build_message (some payload) "data" "R").2).lookup "type" =
      some (JValue.str "data") ∧
    (json_loads (build_message (some payload) "data" "R").2).lookup "resource" =
      some (JValue.str "R") ∧
    (∀ k, k ≠ "type" → k ≠ "resource" →
      (json_loads (build_message (some payload) "data" "R").2).lookup k =
        payload.lookup k) ∧
    (json_loads (build_message (some (json_loads
        (build_message (some payload) "data" "R").2)) "data" "R").2).map
        (fun p => p.1) =
      (json_loads (build_message (some payload) "data" "R").2).map
        (fun p => p.1) := by
  have hdec : json_loads (build_message (some payload) "data" "R").2 =
      assoc_set (assoc_set payload "type" (JValue.str "data"))
        "resource" (JValue.str "R") := rfl
  have htype : (json_loads (build_message (some payload) "data" "R").2).lookup
      "type" = some (JValue.str "data") := by
    rw [hdec, lookup_assoc_set_ne _ _ _ _ (by decide), lookup_assoc_set_self]
  have hres : (json_loads (build_message (some payload) "data" "R").2).lookup
      "resource" = some (JValue.str "R") := by
    rw [hdec, lookup_assoc_set_self]
  refine ⟨htype, hres, ?_, ?_⟩
  · intro k hk1 hk2
    rw [hdec, lookup_assoc_set_ne _ _ _ _ hk2, lookup_assoc_set_ne _ _ _ _ hk1]
  · set decoded := json_loads (build_message (some payload) "data" "R").2 with hd
    have hdec2 : json_loads (build_message (some decoded) "data" "R").2 =
        assoc_set (assoc_set decoded "type" (JValue.str "data"))
          "resource" (JValue.str "R") := rfl
    rw [hdec2]
    have h1 : (assoc_set decoded "type" (JValue.str "data")).map (fun p => p.1) =
        decoded.map (fun p => p.1) :=
      keys_assoc_set_of_lookup _ _ _ _ htype
    have hres2 : (assoc_set decoded "type" (JValue.str "data")).lookup
        "resource" = some (JValue.str "R") := by
      rw [lookup_assoc_set_ne _ _ _ _ (by decide)]
      exact hres
    rw [keys_assoc_set_of_lookup _ _ _ _ hres2, h1]

/-- Witness for C7 at a one-entry payload. -/
theorem build_message_roundtrip_witness :
    (json_loads (build_message (some [("a", JValue.null)]) "data" "R").2).lookup
      "type" = some (JValue.str "data") ∧
    (json_loads (build_message (some [("a", JValue.null)]) "data" "R").2).lookup
      "a" = ([("a", JValue.null)] : PyDict).lookup "a" :=
  ⟨(build_message_roundtrip [("a", JValue.null)]).1,
    (build_message_roundtrip [("a", JValue.null)]).2.2.1 "a"
      (by decide) (by decide)⟩

/-- Counterexample to C10 as stated: for the empty payload mapping, the line
`message = message or ...` rebinds to a fresh dict, so the caller-supplied
empty mapping is left untouched and gains no type key. -/
theorem build_message_empty_payload_not_mutated :
    (build_message (some []) "data" "R").1 = some [] ∧
    (([] : PyDict).lookup "type" = none) := ⟨rfl, rfl⟩

/-- C10 (amended to non-empty payload mappings): `build_message` mutates a
non-empty caller-supplied mapping in place: after the call the very mapping
the caller holds is the serialized one, its type and resource keys are bound
to the given message type and resource name, and all its other entries are
unchanged. -/
theorem build_message_mutates_nonempty_payload (payload : PyDict)
    (t r : String) (h : payload.isEmpty = false) :
    (build_message (some payload) t r).1 =
      some (json_loads (build_message (some payload) t r).2) ∧
    ((build_message (some payload) t r).1.getD []).lookup "type" =
      some (JValue.str t) ∧
    ((build_message (some payload) t r).1.getD []).lookup "resource" =
      some (JValue.str r) ∧
    (∀ k, k ≠ "type" → k ≠ "resource" →
      ((build_message (some payload) t r).1.getD []).lookup k =
        payload.lookup k) := by
  have hcaller : (build_message (some payload) t r).1 =
      some (assoc_set (assoc_set payload "type" (JValue.str t))
        "resource" (JValue.str r)) := by
    unfold build_message
    simp [h]
  refine ⟨?_, ?_, ?_, ?_⟩
  · rw [hcaller]; rfl
  · rw [hcaller]
    simp only [Option.getD_some]
    rw [lookup_assoc_set_ne _ _ _ _ (by decide), lookup_assoc_set_self]
  · rw [hcaller]
    simp only [Option.getD_some]
    rw [lookup_assoc_set_self]
  · intro k hk1 hk2
    rw [hcaller]
    simp only [Option.getD_some]
    rw [lookup_assoc_set_ne _ _ _ _ hk2, lookup_assoc_set_ne _ _ _ _ hk1]

/-- Witness for the amended C10 at a one-entry payload. -/
theorem build_message_mutates_nonempty_payload_witness :
    (build_message (some [("a", JValue.null)]) "data" "R").1 =
      some (json_loads (build_message (some [("a", JValue.null)]) "data" "R").2) ∧
    ((build_message (some [("a", JValue.null)]) "data" "R").1.getD []).lookup
      "a" = ([("a", JValue.null)] : PyDict).lookup "a" :=
  ⟨(build_message_mutates_nonempty_payload [("a", JValue.null)] "data" "R" rfl).1,
    (build_message_mutates_nonempty_payload [("a", JValue.null)] "data" "R"
      rfl).2.2.2 "a" (by decide) (by decide)⟩

theorem drain_loop_eq {α : Type} (q : List α) : drain_loop q = (q, []) := by
  induction q with
  | nil => rfl
  | cons m rest ih => simp [drain_loop, ih]

/-- The FIFO a fresh push leaves behind for its queue name. -/
theorem lookup_push {α : Type} (st : LocalQueues α) (name : String) (m : α) :
    ((push_message_to_consumer_local_queue st name m).lookup name).getD [] =
      (st.lookup name).getD [] ++ [m] := by
  unfold push_message_to_consumer_local_queue get_consumer_local_queue
  cases hl : st.lookup name with
  | some q => simp [lookup_assoc_set_self, hl]
  | none => simp [lookup_assoc_set_self, hl]

/-- The FIFO left behind by a sequence of pushes on one queue name. -/
theorem lookup_foldl_push {α : Type} (msgs : List α) (st : LocalQueues α)
    (name : String) :
    (((msgs.foldl (fun s m => push_message_to_consumer_local_queue s name m)
        st).lookup name).getD []) = (st.lookup name).getD [] ++ msgs := by
  induction msgs generalizing st with
  | nil => simp
  | cons m msgs ih =>
    rw [List.foldl_cons, ih, lookup_push, List.append_assoc]
    rfl

/-- A drain returns exactly the buffered FIFO of its queue name. -/
theorem get_messages_fst {α : Type} (st : LocalQueues α) (name : String) :
    (get_messages_from_consumer_local_queue st name).1 =
      (st.lookup name).getD [] := by
  unfold get_messages_from_consumer_local_queue get_consumer_local_queue
  cases hl : st.lookup name with
  | some q => simp [drain_loop_eq]
  | none => simp [drain_loop_eq]

/-- After a drain, the FIFO of the drained queue name is empty. -/
theorem lookup_get_messages_snd {α : Type} (st : LocalQueues α)
    (name : String) :
    (((get_messages_from_consumer_local_queue st name).2).lookup name).getD []
      = [] := by
  unfold get_messages_from_consumer_local_queue get_consumer_local_queue
  cases hl : st.lookup name with
  | some q => simp [drain_loop_eq, lookup_assoc_set_self]
  | none => simp [drain_loop_eq, lookup_assoc_set_self]

/-- C8: starting from a state whose FIFO for a queue name is empty or not yet
created, after any sequence of pushes on that name a single drain returns
exactly the pushed messages in push order, and an immediately subsequent
drain on the same name returns an empty result. -/
theorem push_then_drain_returns_in_order {α : Type} (st : LocalQueues α)
    (name : String) (msgs : List α) (h : (st.lookup name).getD [] = []) :
    (get_messages_from_consumer_local_queue
        (msgs.foldl (fun s m => push_message_to_consumer_local_queue s name m)
          st) name).1 = msgs ∧
    (get_messages_from_consumer_local_queue
        (get_messages_from_consumer_local_queue
          (msgs.foldl (fun s m => push_message_to_consumer_local_queue s name m)
            st) name).2 name).1 = [] := by
  constructor
  · rw [get_messages_fst, lookup_foldl_push, h, List.nil_append]
  · rw [get_messages_fst, lookup_get_messages_snd]

/-- Witness for C8: three pushes on a fresh state, drained twice. -/
theorem push_then_drain_returns_in_order_witness :
    (get_messages_from_consumer_local_queue
        ([1, 2, 3].foldl (fun s m => push_message_to_consumer_local_queue s "q" m)
          ([] : LocalQueues Nat)) "q").1 = [1, 2, 3] ∧
    (get_messages_from_consumer_local_queue
        (get_messages_from_consumer_local_queue
          ([1, 2, 3].foldl (fun s m => push_message_to_consumer_local_queue s "q" m)
            ([] : LocalQueues Nat)) "q").2 "q").1 = [] :=
  push_then_drain_returns_in_order [] "q" [1, 2, 3] rfl

/-- Reduction of queue existence for the southbound orientation: only index
zero is excluded. -/
theorem is_existant_southbound (layers : List String) (idx : Nat) :
    is_existant_layer_queue layers "southbound" idx = !decide (idx = 0) := by
  have hsn : ¬(("southbound" : String) = "northbound") := by decide
  unfold is_existant_layer_queue
  by_cases h : idx = 0 <;> simp [h, hsn]

/-- Reduction of queue existence for the northbound orientation: only the
last index is excluded. -/
theorem is_existant_northbound (layers : List String) (idx : Nat) :
    is_existant_layer_queue layers "northbound" idx =
      !decide (idx = layers.length - 1) := by
  have hns : ¬(("northbound" : String) = "southbound") := by decide
  unfold is_existant_layer_queue
  by_cases h : idx = layers.length - 1 <;> simp [h, hns]

/-- Keeping the entries whose index is non-zero keeps every entry of an
enumeration that starts above zero. -/
theorem length_filter_enumFrom_ne_zero {α : Type} (xs : List α) (s : Nat)
    (hs : 0 < s) :
    ((List.enumFrom s xs).filter (fun p => !decide (p.1 = 0))).length =
      xs.length := by
  induction xs generalizing s with
  | nil => rfl
  | cons x xs ih =>
    have hs0 : s ≠ 0 := by omega
    simp only [List.enumFrom_cons, List.filter_cons]
    rw [if_pos (by simp [hs0])]
    simp [ih (s + 1) (by omega)]

/-- Keeping the entries whose index differs from the final index drops
exactly the last entry of an enumeration. -/
theorem length_filter_enumFrom_ne_last {α : Type} (xs : List α) (s m : Nat)
    (hsum : s + xs.length = m + 1) :
    ((List.enumFrom s xs).filter (fun p => !decide (p.1 = m))).length =
      xs.length - 1 := by
  induction xs generalizing s with
  | nil => rfl
  | cons x xs ih =>
    cases xs with
    | nil =>
      have hsm : s = m := by simp at hsum; omega
      simp only [List.enumFrom_cons, List.enumFrom_nil, List.filter_cons]
      rw [if_neg (by simp [hsm])]
      rfl
    | cons y ys =>
      have hsm : s ≠ m := by simp at hsum; omega
      have hnext : s + 1 + (y :: ys).length = m + 1 := by
        simp at hsum ⊢
        omega
      simp only [List.enumFrom_cons, List.filter_cons]
      rw [if_pos (by simp [hsm])]
      rw [List.length_cons]
      have hrec := ih (s + 1) hnext
      simp only [List.enumFrom_cons, List.filter_cons] at hrec
      rw [hrec]
      simp

/-- C9: for a non-empty layer list with non-empty layer names, each of the
two directions contributes exactly one queue name per non-boundary layer, the
full enumeration has exactly twice that many entries, and a single-layer list
yields the empty enumeration. -/
theorem build_all_layer_queue_names_length (layers : List String)
    (hne : layers ≠ []) (hnames : ∀ l ∈ layers, l ≠ "") :
    (layers.enum.filter
        (fun p => is_existant_layer_queue layers "southbound" p.1)).length =
      layers.length - 1 ∧
    (layers.enum.filter
        (fun p => is_existant_layer_queue layers "northbound" p.1)).length =
      layers.length - 1 ∧
    (build_all_layer_queue_names layers).length = 2 * (layers.length - 1) ∧
    (layers.length = 1 → build_all_layer_queue_names layers = []) := by
  have hsouth : (layers.enum.filter
      (fun p => is_existant_layer_queue layers "southbound" p.1)).length =
      layers.length - 1 := by
    simp only [is_existant_southbound]
    obtain ⟨y, ys, rfl⟩ := List.exists_cons_of_ne_nil hne
    rw [List.enum_cons]
    simp [List.filter_cons, length_filter_enumFrom_ne_zero ys 1 (by omega)]
  have hnorth : (layers.enum.filter
      (fun p => is_existant_layer_queue layers "northbound" p.1)).length =
      layers.length - 1 := by
    simp only [is_existant_northbound]
    have hlen : 0 < layers.length := List.length_pos.mpr hne
    have := length_filter_enumFrom_ne_last layers 0 (layers.length - 1)
      (by omega)
    simpa [List.enum] using this
  have htotal : (build_all_layer_queue_names layers).length =
      2 * (layers.length - 1) := by
    simp only [build_all_layer_queue_names, LAYER_ORIENTATIONS, List.map_cons,
      List.map_nil, List.flatten]
    simp [hsouth, hnorth]
    omega
  refine ⟨hsouth, hnorth, htotal, ?_⟩
  intro h1
  have h0 : (build_all_layer_queue_names layers).length = 0 := by
    rw [htotal, h1]
  exact List.length_eq_zero.mp h0

/-- Witness for C9 at the three-layer list. -/
theorem build_all_layer_queue_names_length_witness :
    (build_all_layer_queue_names ["L0", "L1", "L2"]).length =
      2 * ((["L0", "L1", "L2"] : List String).length - 1) :=
  (build_all_layer_queue_names_length ["L0", "L1", "L2"] (by decide)
    (by decide)).2.2.1

end ACE
